import Mathlib

/-
Verification development for the planning board of obsidian-proletarian-wizard.

The embedding models the two source files:
  src/ui/PlanningComponent.tsx   (bucketing, range queries, move commands, WIP styles)
  src/Views/TodoStatusComponent.tsx  (status toggle and status menu)

Modelling conventions:
* Calendar dates are integers counting days since 1970-01-01 (luxon DateTime
  values in this component are always truncated to a day via startOf("day"),
  and only day arithmetic is performed on them).  Civil (year, month, day)
  conversions use the standard closed-form Gregorian algorithms; they model
  luxon exactly on day granularity.
* Attribute values are modelled by AttrValue: a value that parses as a valid
  ISO date, a truthy value that is not a parseable date (for example the
  boolean true used as the "selected" marker), or a falsy value.  This models
  DateTime.fromISO validity together with JavaScript truthiness, which is all
  the source reads from an attribute value.
* Asynchronous mutation requests issued through FileOperations and logger
  calls are modelled as a trace: a list of Effect values in the order they
  are issued.  A promise chain (.then sequencing) issues each request after
  the completion of the previous one, hence the list order is the issue
  order of the source.
-/

namespace PW

inductive TodoStatus
  | Todo
  | InProgress
  | AttentionRequired
  | Delegated
  | Complete
  | Canceled
deriving DecidableEq, Repr

/-- Attribute values as observed by the component: a value parsing as a valid
ISO calendar date (carrying that date), a truthy non-date value, or a falsy
value (false, empty string). -/
inductive AttrValue
  | date (d : Int)
  | marker
  | falsy
deriving DecidableEq, Repr

/-- TodoItem from src/domain (only the fields the two source files read):
a stable id, a status, and an optional attribute mapping. -/
structure TodoItem where
  id : String
  status : TodoStatus
  attributes : Option (List (String × AttrValue))
deriving DecidableEq, Repr

/-- Plugin settings (ProletarianWizardSettings) fields read by the sources. -/
structure Settings where
  dueDateAttribute : String
  completedDateAttribute : String
  selectedAttribute : String
  startedAttribute : String
  firstWeekday : Int
  showWeekEnds : Bool
  trackStartTime : Bool
deriving DecidableEq, Repr

structure WipLimit where
  isLimited : Bool
  dailyLimit : Nat
deriving DecidableEq, Repr

/-- Planning settings (PlanningSettingsStore) fields read by getColumns. -/
structure PlanningSettings where
  hideEmpty : Bool
  wipLimit : WipLimit
deriving DecidableEq, Repr

/-- Lookup of todo.attributes[name]; none when the attributes mapping itself
is absent or the key is missing. -/
def attrLookup (todo : TodoItem) (name : String) : Option AttrValue :=
  match todo.attributes with
  | none => none
  | some attrs => attrs.lookup name

/-- JavaScript truthiness of an attribute read. -/
def attrTruthy : Option AttrValue → Bool
  | none => false
  | some AttrValue.falsy => false
  | some _ => true

/-- findTodoDate from PlanningComponent.tsx: null when the attributes mapping
is absent; otherwise read the attribute, and when it is truthy parse it as an
ISO date, returning null when parsing fails. -/
def findTodoDate (todo : TodoItem) (attributeName : String) : Option Int :=
  match todo.attributes with
  | none => none
  | some attrs =>
    match attrs.lookup attributeName with
    | none => none
    | some v =>
      if attrTruthy (some v) then
        match v with
        | AttrValue.date d => some d
        | _ => none
      else none

def isDoneStatus (s : TodoStatus) : Bool :=
  s == TodoStatus.Complete || s == TodoStatus.Canceled

/-- dateIsInRange from getTodosByDate (line 63): a null date is never in
range; otherwise (from === null or date >= from) and (to === null or
date < to). -/
def dateIsInRange (lo hi : Option Int) : Option Int → Bool
  | none => false
  | some d =>
    (match lo with
     | none => true
     | some f => decide (f ≤ d))
    &&
    (match hi with
     | none => true
     | some t => decide (d < t))

/-- todoInRange from getTodosByDate: due date in range, or (when
includeSelected) the selected marker is set and the todo is open, or done
with its completed date in range. -/
def todoInRange (s : Settings) (lo hi : Option Int) (includeSelected : Bool)
    (todo : TodoItem) : Bool :=
  let isDone := isDoneStatus todo.status
  let isSelected := todo.attributes.isSome && attrTruthy (attrLookup todo s.selectedAttribute)
  let dueDate := findTodoDate todo s.dueDateAttribute
  let completedDate := findTodoDate todo s.completedDateAttribute
  let dueDateIsInRange := dateIsInRange lo hi dueDate
  let completedDateIsInRange := dateIsInRange lo hi completedDate
  dueDateIsInRange || (includeSelected && isSelected && (isDone && completedDateIsInRange || !isDone))

/-- getTodosByDate from PlanningComponent.tsx (lines 62-76). -/
def getTodosByDate (s : Settings) (filteredTodos : List TodoItem)
    (lo hi : Option Int) (includeSelected : Bool := false) : List TodoItem :=
  filteredTodos.filter (fun todo => todo.attributes.isSome && todoInRange s lo hi includeSelected todo)

/-- getTodosWithNoDate from PlanningComponent.tsx (lines 78-84). -/
def getTodosWithNoDate (s : Settings) (filteredTodos : List TodoItem) : List TodoItem :=
  filteredTodos.filter (fun todo =>
    (findTodoDate todo s.dueDateAttribute).isNone
    && todo.attributes.isSome
    && !(attrTruthy (attrLookup todo s.selectedAttribute))
    && !(todo.status == TodoStatus.Canceled) && !(todo.status == TodoStatus.Complete))

/-- getTodosByDateAndStatus from PlanningComponent.tsx (lines 132-135):
the only call site of getTodosByDate passing includeSelected = true. -/
def getTodosByDateAndStatus (s : Settings) (filteredTodos : List TodoItem)
    (lo hi : Int) (statuses : List TodoStatus) : List TodoItem :=
  (getTodosByDate s filteredTodos (some lo) (some hi) true).filter
    (fun todo => statuses.contains todo.status)

/-! ### Calendar model (luxon on day granularity)

Days are counted from 1970-01-01.  daysFromCivil and civilFromDays are the
standard closed-form proleptic Gregorian conversions. -/

/-- Days since 1970-01-01 of the civil date (y, m, d). -/
def daysFromCivil (y m d : Int) : Int :=
  let y2 := if m ≤ 2 then y - 1 else y
  let era := y2 / 400
  let yoe := y2 - era * 400
  let mp := (m + 9) % 12
  let doy := (153 * mp + 2) / 5 + d - 1
  let doe := yoe * 365 + yoe / 4 - yoe / 100 + doy
  era * 146097 + doe - 719468

/-- Civil date (y, m, d) of a day count since 1970-01-01. -/
def civilFromDays (z0 : Int) : Int × Int × Int :=
  let z := z0 + 719468
  let era := z / 146097
  let doe := z - era * 146097
  let yoe := (doe - doe / 1460 + doe / 36524 - doe / 146096) / 365
  let y := yoe + era * 400
  let doy := doe - (365 * yoe + yoe / 4 - yoe / 100)
  let mp := (5 * doy + 2) / 153
  let d := doy - (153 * mp + 2) / 5 + 1
  let m := if mp < 10 then mp + 3 else mp - 9
  (y + (if m ≤ 2 then 1 else 0), m, d)

/-- ISO weekday (Monday = 1 .. Sunday = 7); 1970-01-01 was a Thursday. -/
def isoWeekday (z : Int) : Int :=
  ((z + 3) % 7) + 1

/-- First day of the month following the month of z.  Models both
startOf("month").plus (months 1) applied to an arbitrary day, and
plus (months 1) applied to a first-of-month day (the only two ways the
source advances by months). -/
def nextMonthStart (z : Int) : Int :=
  match civilFromDays z with
  | (y, m, _) => if m == 12 then daysFromCivil (y + 1) 1 1 else daysFromCivil y (m + 1) 1

def pad2 (n : Int) : String :=
  if n < 10 then "0" ++ toString n else toString n

/-- The dd/MM part of the toFormat calls. -/
def formatDDMM (z : Int) : String :=
  match civilFromDays z with
  | (_, m, d) => pad2 d ++ "/" ++ pad2 m

/-- DateTime.toISODate. -/
def isoDateString (z : Int) : String :=
  match civilFromDays z with
  | (y, m, d) => toString y ++ "-" ++ pad2 m ++ "-" ++ pad2 d

def weekdayName (z : Int) : String :=
  let w := isoWeekday z
  if w == 1 then "Monday"
  else if w == 2 then "Tuesday"
  else if w == 3 then "Wednesday"
  else if w == 4 then "Thursday"
  else if w == 5 then "Friday"
  else if w == 6 then "Saturday"
  else "Sunday"

/-- The toFormat "cccc dd/MM" label of non-first daily brackets. -/
def dailyLabel (z : Int) : String :=
  weekdayName z ++ " " ++ formatDDMM z

/-! ### Bucket generator

A Bucket records the arguments the source passes to PlanningTodoColumn,
with the todo query it was built from; bucketTodos evaluates that query,
reproducing the todos list the source computes and passes down. -/

/-- The todo query a column is built from: getTodosWithNoDate (Backlog),
getTodosByDate with the Past status filter (Past), a plain getTodosByDate
call (daily, weekly, monthly, Later), or getTodosByDateAndStatus (the three
Today columns). -/
inductive Query
  | noDate
  | pastOpen (hi : Int)
  | byDate (lo hi : Option Int) (includeSelected : Bool)
  | byDateAndStatus (lo hi : Int) (statuses : List TodoStatus)
deriving DecidableEq, Repr

structure Bucket where
  icon : String
  title : String
  query : Query
  hideIfEmpty : Bool
  style : String
deriving DecidableEq, Repr

def evalQuery (s : Settings) (filteredTodos : List TodoItem) : Query → List TodoItem
  | Query.noDate => getTodosWithNoDate s filteredTodos
  | Query.pastOpen hi =>
    (getTodosByDate s filteredTodos none (some hi)).filter
      (fun todo => !(todo.status == TodoStatus.Canceled) && !(todo.status == TodoStatus.Complete))
  | Query.byDate lo hi inc => getTodosByDate s filteredTodos lo hi inc
  | Query.byDateAndStatus lo hi statuses => getTodosByDateAndStatus s filteredTodos lo hi statuses

/-- The todos the source computes for a column. -/
def bucketTodos (s : Settings) (filteredTodos : List TodoItem) (b : Bucket) : List TodoItem :=
  evalQuery s filteredTodos b.query

/-- getWipStyle from PlanningComponent.tsx (lines 201-208). -/
def getWipStyle (wip : WipLimit) (todos : List TodoItem) : String :=
  if wip.isLimited then
    if wip.dailyLimit < todos.length then "wip-exceeded" else ""
  else ""

/-- getTodayWipStyle from PlanningComponent.tsx (lines 160-170).  The source
returns the empty string when the limit is off, the exceeded marker when the
aggregate count exceeds the limit, and falls through (JavaScript undefined,
modelled as none) otherwise. -/
def getTodayWipStyle (s : Settings) (wip : WipLimit) (filteredTodos : List TodoItem)
    (today : Int) : Option String :=
  if !wip.isLimited then some "" else
  let tomorrow := today + 1
  let todos := getTodosByDateAndStatus s filteredTodos today tomorrow
    [TodoStatus.AttentionRequired, TodoStatus.Delegated, TodoStatus.InProgress, TodoStatus.Todo]
  if wip.dailyLimit < todos.length then some "pw-planning-column-content--wip-exceeded" else none

/-- getTodayColumns from PlanningComponent.tsx (lines 172-199). -/
def getTodayColumns (today : Int) : List Bucket :=
  let tomorrow := today + 1
  [ { icon := "◻️", title := "Todo",
      query := Query.byDateAndStatus today tomorrow [TodoStatus.Todo],
      hideIfEmpty := false, style := "today" },
    { icon := "⏩", title := "In progress",
      query := Query.byDateAndStatus today tomorrow
        [TodoStatus.AttentionRequired, TodoStatus.Delegated, TodoStatus.InProgress],
      hideIfEmpty := false, style := "today" },
    { icon := "✅", title := "Done",
      query := Query.byDateAndStatus today tomorrow [TodoStatus.Canceled, TodoStatus.Complete],
      hideIfEmpty := false, style := "today" } ]

/-- localDay computed in the daily bracket loop (line 232). -/
def localDay (s : Settings) (dayStart : Int) : Int :=
  ((isoWeekday dayStart - s.firstWeekday + 7) % 7) + 1

/-- One emitted daily bracket (loop body, lines 237-246); i is the loop
index, labelling the bracket "Tomorrow" when i = 0. -/
def dailyBucket (s : Settings) (p : PlanningSettings) (filteredTodos : List TodoItem)
    (i : Nat) (dayStart : Int) : Bucket :=
  let dayEnd := dayStart + 1
  let label := if i == 0 then "Tomorrow" else dailyLabel dayStart
  let todos := getTodosByDate s filteredTodos (some dayStart) (some dayEnd)
  { icon := "📅", title := label, query := Query.byDate (some dayStart) (some dayEnd) false,
    hideIfEmpty := p.hideEmpty, style := getWipStyle p.wipLimit todos }

/-- The daily bracket loop (lines 229-248): fuel counts the remaining of the
six iterations, i is the loop index.  A skipped weekend day advances the
cursor and the loop index without emitting a bucket, exactly as the
JavaScript continue statement does. -/
def dailyColumns (s : Settings) (p : PlanningSettings) (filteredTodos : List TodoItem) :
    Nat → Nat → Int → List Bucket
  | 0, _, _ => []
  | fuel + 1, i, dayStart =>
    if ¬s.showWeekEnds ∧ 6 ≤ localDay s dayStart then
      dailyColumns s p filteredTodos fuel (i + 1) (dayStart + 1)
    else
      dailyBucket s p filteredTodos i dayStart
        :: dailyColumns s p filteredTodos fuel (i + 1) (dayStart + 1)

/-- One weekly bracket (loop body, lines 257-269). -/
def weeklyBucket (s : Settings) (p : PlanningSettings) (filteredTodos : List TodoItem)
    (i : Nat) (weekStart : Int) : Bucket :=
  let weekEnd := weekStart + 7
  let label := if i == 0 then "Next week"
    else "Week +" ++ toString (i + 1) ++ " (" ++ formatDDMM weekStart ++ " - "
      ++ formatDDMM (weekEnd - 1) ++ ")"
  let todos := getTodosByDate s filteredTodos (some weekStart) (some weekEnd)
  { icon := "📅", title := label, query := Query.byDate (some weekStart) (some weekEnd) false,
    hideIfEmpty := p.hideEmpty, style := getWipStyle p.wipLimit todos }

/-- The weekly bracket loop (lines 256-271). -/
def weeklyColumns (s : Settings) (p : PlanningSettings) (filteredTodos : List TodoItem) :
    Nat → Nat → Int → List Bucket
  | 0, _, _ => []
  | fuel + 1, i, weekStart =>
    weeklyBucket s p filteredTodos i weekStart
      :: weeklyColumns s p filteredTodos fuel (i + 1) (weekStart + 7)

/-- One monthly bracket (loop body, lines 276-289). -/
def monthlyBucket (s : Settings) (p : PlanningSettings) (filteredTodos : List TodoItem)
    (i : Nat) (monthStart : Int) : Bucket :=
  let monthEnd := nextMonthStart monthStart
  let label := if i == 0 then "Next month"
    else "Month +" ++ toString (i + 1) ++ " (" ++ formatDDMM monthStart ++ " - "
      ++ formatDDMM (monthEnd - 1) ++ ")"
  let todos := getTodosByDate s filteredTodos (some monthStart) (some monthEnd)
  { icon := "📅", title := label, query := Query.byDate (some monthStart) (some monthEnd) false,
    hideIfEmpty := p.hideEmpty, style := getWipStyle p.wipLimit todos }

/-- The monthly bracket loop (lines 275-290); the cursor is always a first
of month, advanced by one month each iteration. -/
def monthlyColumns (s : Settings) (p : PlanningSettings) (filteredTodos : List TodoItem) :
    Nat → Nat → Int → List Bucket
  | 0, _, _ => []
  | fuel + 1, i, monthStart =>
    monthlyBucket s p filteredTodos i monthStart
      :: monthlyColumns s p filteredTodos fuel (i + 1) (nextMonthStart monthStart)

/-- startOfThisWeek (lines 251-254): today moved to firstWeekday of the ISO
week, minus one week when that lands after today. -/
def startOfThisWeekOn (s : Settings) (today : Int) : Int :=
  let s0 := today + (s.firstWeekday - isoWeekday today)
  if today < s0 then s0 - 7 else s0

/-- getColumns from PlanningComponent.tsx (lines 210-298): Backlog, Past,
six daily iterations from today+1, four weekly brackets from one week after
startOfThisWeek, three monthly brackets from the first of next month, and
the unbounded Later bucket. -/
def getColumns (s : Settings) (p : PlanningSettings) (filteredTodos : List TodoItem)
    (today : Int) : List Bucket :=
  let backlog : Bucket :=
    { icon := "📃", title := "Backlog", query := Query.noDate, hideIfEmpty := false, style := "" }
  let past : Bucket :=
    { icon := "🕸️", title := "Past", query := Query.pastOpen today, hideIfEmpty := true, style := "" }
  let daily := dailyColumns s p filteredTodos 6 0 (today + 1)
  let weekly := weeklyColumns s p filteredTodos 4 0 (startOfThisWeekOn s today + 7)
  let monthStart := nextMonthStart today
  let monthly := monthlyColumns s p filteredTodos 3 0 monthStart
  let laterStart := nextMonthStart (nextMonthStart (nextMonthStart monthStart))
  let later : Bucket :=
    { icon := "📅", title := "Later", query := Query.byDate (some laterStart) none false,
      hideIfEmpty := p.hideEmpty, style := "" }
  backlog :: past :: (daily ++ (weekly ++ (monthly ++ [later])))

/-! ### Date ranges of the main sequence -/

/-- The date range a query filters on; none for the Backlog query, which is
not date-bounded. -/
def rangeOfQuery : Query → Option (Option Int × Option Int)
  | Query.noDate => none
  | Query.pastOpen hi => some (none, some hi)
  | Query.byDate lo hi _ => some (lo, hi)
  | Query.byDateAndStatus lo hi _ => some (some lo, some hi)

def bucketRanges (bs : List Bucket) : List (Option Int × Option Int) :=
  bs.filterMap (fun b => rangeOfQuery b.query)

/-- The date ranges of the main sequence produced by getColumns, in order:
Past, then the daily, weekly, monthly and Later buckets (Backlog carries no
range and is dropped). -/
def mainRanges (s : Settings) (p : PlanningSettings) (filteredTodos : List TodoItem)
    (today : Int) : List (Option Int × Option Int) :=
  bucketRanges (getColumns s p filteredTodos today)

/-- Membership of a date in a range, with the half-open dateIsInRange test. -/
def rangeContains (r : Option Int × Option Int) (d : Int) : Prop :=
  dateIsInRange r.1 r.2 (some d) = true

instance (r : Option Int × Option Int) (d : Int) : Decidable (rangeContains r d) := by
  unfold rangeContains; infer_instance

def disjointRanges (r r2 : Option Int × Option Int) : Prop :=
  ∀ d : Int, ¬(rangeContains r d ∧ rangeContains r2 d)

/-! ### Command engine -/

/-- A mutation request or log call, in issue order.  The promise chain in
the source issues each request after the previous one resolves; the trace
lists them in that order. -/
inductive Effect
  | logDebug (msg : String)
  | logWarn (msg : String)
  | updateAttribute (todoId attrName value : String)
  | removeAttribute (todoId attrName : String)
  | updateStatus (todoId : String) (newStatus : TodoStatus) (completedAttrName : String)
deriving DecidableEq, Repr

def Effect.isWarnB : Effect → Bool
  | Effect.logWarn _ => true
  | _ => false

def Effect.isMutationB : Effect → Bool
  | Effect.logDebug _ => false
  | Effect.logWarn _ => false
  | _ => true

/-- findTodo from PlanningComponent.tsx (lines 86-88). -/
def findTodo (todos : List TodoItem) (todoId : String) : Option TodoItem :=
  todos.find? (fun todo => todo.id == todoId)

/-- moveToDate from PlanningComponent.tsx (lines 90-100): debug log, then on
a missing id a warning and nothing else, otherwise the due date attribute
update. -/
def moveToDate (s : Settings) (todos : List TodoItem) (date : Int) (todoId : String) :
    List Effect :=
  Effect.logDebug ("Moving " ++ todoId ++ " to " ++ isoDateString date) ::
    match findTodo todos todoId with
    | none => [Effect.logWarn ("Todo " ++ todoId ++ " not found")]
    | some todo => [Effect.updateAttribute todo.id s.dueDateAttribute (isoDateString date)]

/-- removeDate from PlanningComponent.tsx (lines 102-110): on a missing id
it returns with no effect at all; otherwise the due date attribute removal. -/
def removeDate (s : Settings) (todos : List TodoItem) (todoId : String) : List Effect :=
  match findTodo todos todoId with
  | none => []
  | some todo => [Effect.removeAttribute todo.id s.dueDateAttribute]

/-- moveToDateAndStatus from PlanningComponent.tsx (lines 112-130): debug
log; on a missing id a warning and nothing else; otherwise the due date
update, then the status update, then, when trackStartTime is on, the started
attribute empty and the target status InProgress, the started attribute
update stamped with the current date. -/
def moveToDateAndStatus (s : Settings) (todos : List TodoItem) (now date : Int)
    (status : TodoStatus) (todoId : String) : List Effect :=
  Effect.logDebug ("Moving " ++ todoId ++ " to " ++ isoDateString date) ::
    match findTodo todos todoId with
    | none => [Effect.logWarn ("Todo " ++ todoId ++ " not found")]
    | some todo =>
      Effect.updateAttribute todo.id s.dueDateAttribute (isoDateString date) ::
      Effect.updateStatus todo.id status s.completedDateAttribute ::
      (if s.trackStartTime && !(attrTruthy (attrLookup todo s.startedAttribute))
          && (status == TodoStatus.InProgress)
       then [Effect.updateAttribute todo.id s.startedAttribute (isoDateString now)]
       else [])

/-- onclick from TodoStatusComponent.tsx (lines 65-74): the toggled todo and
the trace.  A done todo (Complete or Canceled) is reset to Todo, anything
else is completed. -/
def onclick (s : Settings) (todo : TodoItem) : TodoItem × List Effect :=
  let wasCompleted := todo.status == TodoStatus.Complete || todo.status == TodoStatus.Canceled
  let todo2 : TodoItem :=
    { todo with status := if wasCompleted then TodoStatus.Todo else TodoStatus.Complete }
  (todo2,
    [Effect.logDebug ("Changing status on " ++ todo.id),
     Effect.updateStatus todo2.id todo2.status s.completedDateAttribute])

/-! ### Concrete instances used by counterexamples and witnesses -/

def cfgA : Settings :=
  { dueDateAttribute := "due", completedDateAttribute := "completed",
    selectedAttribute := "selected", startedAttribute := "started",
    firstWeekday := 1, showWeekEnds := true, trackStartTime := true }

def cfgNoWeekends : Settings := { cfgA with showWeekEnds := false }

def pA : PlanningSettings :=
  { hideEmpty := false, wipLimit := { isLimited := false, dailyLimit := 0 } }

/-- A pinned open todo without a due date. -/
def todoSel : TodoItem :=
  { id := "todo-1", status := TodoStatus.Todo, attributes := some [("selected", AttrValue.marker)] }

/-- A completed pinned todo whose completed date is day 100. -/
def todoDoneSel : TodoItem :=
  { id := "todo-2", status := TodoStatus.Complete,
    attributes := some [("selected", AttrValue.marker), ("completed", AttrValue.date 100)] }

/-- A todo whose attributes mapping is absent. -/
def todoNoAttr : TodoItem :=
  { id := "todo-3", status := TodoStatus.Todo, attributes := none }

/-- A todo with only a due date. -/
def todoDue (d : Int) : TodoItem :=
  { id := "todo-4", status := TodoStatus.Todo, attributes := some [("due", AttrValue.date d)] }

/-- The structure the main sequence of getColumns actually has, for a day t,
in place of the claimed full partition: the Past range and the daily ranges
are pairwise disjoint, the weekly ranges are pairwise disjoint, the monthly
and Later ranges are pairwise disjoint; the monthly and Later ranges jointly
cover every date from the first monthly start on; when weekends are shown
the whole main sequence covers every date of [t+1, startOfThisWeek+35); the
Past range covers exactly the dates before t and every other range contains
only dates after t.  The families still overlap each other: the first weekly
bracket overlaps the daily brackets whenever t is not the firstWeekday, and
the monthly brackets overlap the weekly ones whenever the first monthly
start falls before the weekly coverage ends, so the full list is not a
partition. -/
def mainSequenceStructure (s : Settings) (p : PlanningSettings) (td : List TodoItem)
    (t : Int) : Prop :=
  List.Pairwise disjointRanges
      ((none, some t) :: bucketRanges (dailyColumns s p td 6 0 (t + 1)))
  ∧ List.Pairwise disjointRanges
      (bucketRanges (weeklyColumns s p td 4 0 (startOfThisWeekOn s t + 7)))
  ∧ List.Pairwise disjointRanges
      (bucketRanges (monthlyColumns s p td 3 0 (nextMonthStart t))
        ++ [(some (nextMonthStart (nextMonthStart (nextMonthStart (nextMonthStart t)))),
             none)])
  ∧ (∀ d : Int, nextMonthStart t ≤ d → ∃ r ∈ mainRanges s p td t, rangeContains r d)
  ∧ (s.showWeekEnds = true → ∀ d : Int, t + 1 ≤ d →
      d < startOfThisWeekOn s t + 35 → ∃ r ∈ mainRanges s p td t, rangeContains r d)
  ∧ (∀ d : Int, d < t → rangeContains (none, some t) d)
  ∧ (none, some t) ∈ mainRanges s p td t
  ∧ (∀ r ∈ bucketRanges (weeklyColumns s p td 4 0 (startOfThisWeekOn s t + 7))
        ++ (bucketRanges (monthlyColumns s p td 3 0 (nextMonthStart t))
          ++ [(some (nextMonthStart (nextMonthStart (nextMonthStart (nextMonthStart t)))),
               none)]),
      ∀ d : Int, rangeContains r d → t < d)

/-! ### Helper lemmas -/

lemma rangeContains_some_some (a b d : Int) :
    rangeContains (some a, some b) d ↔ a ≤ d ∧ d < b := by
  simp [rangeContains, dateIsInRange]

lemma rangeContains_none_some (b d : Int) :
    rangeContains (none, some b) d ↔ d < b := by
  simp [rangeContains, dateIsInRange]

lemma rangeContains_some_none (a d : Int) :
    rangeContains (some a, none) d ↔ a ≤ d := by
  simp [rangeContains, dateIsInRange]

lemma isoWeekday_lb (z : Int) : 1 ≤ isoWeekday z := by
  unfold isoWeekday; omega

lemma isoWeekday_ub (z : Int) : isoWeekday z ≤ 7 := by
  unfold isoWeekday; omega

lemma startOfThisWeekOn_le (s : Settings) (t : Int) (h7 : s.firstWeekday ≤ 7) :
    startOfThisWeekOn s t ≤ t := by
  have h1 := isoWeekday_lb t
  simp only [startOfThisWeekOn]
  split <;> omega

lemma startOfThisWeekOn_ge (s : Settings) (t : Int) (h1 : 1 ≤ s.firstWeekday) :
    t - 6 ≤ startOfThisWeekOn s t := by
  have h2 := isoWeekday_ub t
  simp only [startOfThisWeekOn]
  split <;> omega

lemma filterMap_ite_eq_map_filter {α β : Type} (l : List α) (C : α → Prop)
    [DecidablePred C] (g : α → β) :
    (l.filterMap (fun a => if C a then none else some (g a)))
      = (l.filter (fun a => decide ¬(C a))).map g := by
  induction l with
  | nil => rfl
  | cons a l ih =>
    simp only [List.filterMap_cons, List.filter_cons]
    by_cases h : C a
    · simp [h, ih]
    · simp [h, ih]

lemma dailyColumns_eq (s : Settings) (p : PlanningSettings) (td : List TodoItem) :
    ∀ (n i : Nat) (d : Int),
      dailyColumns s p td n i d = (List.range n).filterMap (fun k : Nat =>
        if ¬s.showWeekEnds ∧ 6 ≤ localDay s (d + (k : Int)) then none
        else some (dailyBucket s p td (i + k) (d + (k : Int)))) := by
  intro n
  induction n with
  | zero => intro i d; rfl
  | succ n ih =>
    intro i d
    rw [List.range_succ_eq_map]
    simp only [dailyColumns]
    by_cases h : ¬s.showWeekEnds ∧ 6 ≤ localDay s d
    · rw [if_pos h, List.filterMap_cons_none
          (by simp only [Nat.cast_zero, add_zero]; exact if_pos h),
        List.filterMap_map, ih (i + 1) (d + 1)]
      apply List.filterMap_congr
      intro k _
      simp only [Function.comp_apply, Nat.succ_eq_add_one, Nat.cast_add, Nat.cast_one]
      rw [show d + ((k : Int) + 1) = d + 1 + (k : Int) from by ring,
        show i + (k + 1) = i + 1 + k from by omega]
    · rw [if_neg h, ih (i + 1) (d + 1), List.filterMap_cons]
      simp only [Nat.cast_zero, add_zero, if_neg h]
      rw [List.filterMap_map]
      congr 1
      apply List.filterMap_congr
      intro k _
      simp only [Function.comp_apply, Nat.succ_eq_add_one, Nat.cast_add, Nat.cast_one]
      rw [show d + ((k : Int) + 1) = d + 1 + (k : Int) from by ring,
        show i + (k + 1) = i + 1 + k from by omega]

lemma weeklyColumns_eq (s : Settings) (p : PlanningSettings) (td : List TodoItem) :
    ∀ (n i : Nat) (w : Int),
      weeklyColumns s p td n i w
        = (List.range n).map (fun k : Nat => weeklyBucket s p td (i + k) (w + 7 * (k : Int))) := by
  intro n
  induction n with
  | zero => intro i w; rfl
  | succ n ih =>
    intro i w
    rw [List.range_succ_eq_map]
    simp only [weeklyColumns, List.map_cons, List.map_map]
    congr 1
    · simp
    rw [ih (i + 1) (w + 7)]
    apply List.map_congr_left
    intro k _
    simp only [Function.comp_apply, Nat.succ_eq_add_one, Nat.cast_add, Nat.cast_one]
    rw [show w + 7 * ((k : Int) + 1) = w + 7 + 7 * (k : Int) from by ring,
      show i + (k + 1) = i + 1 + k from by omega]

lemma monthlyColumns_three (s : Settings) (p : PlanningSettings) (td : List TodoItem)
    (m : Int) :
    monthlyColumns s p td 3 0 m
      = [monthlyBucket s p td 0 m,
         monthlyBucket s p td 1 (nextMonthStart m),
         monthlyBucket s p td 2 (nextMonthStart (nextMonthStart m))] := rfl

lemma bucketRanges_daily (s : Settings) (p : PlanningSettings) (td : List TodoItem)
    (n i : Nat) (d : Int) :
    bucketRanges (dailyColumns s p td n i d)
      = (List.range n).filterMap (fun k : Nat =>
          if ¬s.showWeekEnds ∧ 6 ≤ localDay s (d + (k : Int)) then none
          else some (some (d + (k : Int)), some (d + (k : Int) + 1))) := by
  rw [bucketRanges, dailyColumns_eq, List.filterMap_filterMap]
  apply List.filterMap_congr
  intro k _
  by_cases h : ¬s.showWeekEnds ∧ 6 ≤ localDay s (d + (k : Int))
  · simp only [if_pos h]; rfl
  · simp only [if_neg h]; rfl

lemma bucketRanges_weekly (s : Settings) (p : PlanningSettings) (td : List TodoItem)
    (n i : Nat) (w : Int) :
    bucketRanges (weeklyColumns s p td n i w)
      = (List.range n).map (fun k : Nat =>
          (some (w + 7 * (k : Int)), some (w + 7 * (k : Int) + 7))) := by
  rw [bucketRanges, weeklyColumns_eq, List.filterMap_map]
  rw [show ((fun b => rangeOfQuery b.query)
        ∘ fun k : Nat => weeklyBucket s p td (i + k) (w + 7 * (k : Int)))
      = some ∘ (fun k : Nat => (some (w + 7 * (k : Int)), some (w + 7 * (k : Int) + 7))) from by
    funext k; simp [Function.comp_apply, weeklyBucket, rangeOfQuery]]
  rw [List.filterMap_eq_map]

lemma bucketRanges_monthly3 (s : Settings) (p : PlanningSettings) (td : List TodoItem)
    (m : Int) :
    bucketRanges (monthlyColumns s p td 3 0 m)
      = [(some m, some (nextMonthStart m)),
         (some (nextMonthStart m), some (nextMonthStart (nextMonthStart m))),
         (some (nextMonthStart (nextMonthStart m)),
          some (nextMonthStart (nextMonthStart (nextMonthStart m))))] := by
  simp [monthlyColumns_three, bucketRanges, monthlyBucket, rangeOfQuery]

lemma mainRanges_eq (s : Settings) (p : PlanningSettings) (td : List TodoItem) (t : Int) :
    mainRanges s p td t
      = (none, some t) :: (bucketRanges (dailyColumns s p td 6 0 (t + 1))
        ++ (bucketRanges (weeklyColumns s p td 4 0 (startOfThisWeekOn s t + 7))
        ++ (bucketRanges (monthlyColumns s p td 3 0 (nextMonthStart t))
        ++ [(some (nextMonthStart (nextMonthStart (nextMonthStart (nextMonthStart t)))),
             none)]))) := by
  simp [mainRanges, getColumns, bucketRanges, List.filterMap_append, rangeOfQuery]

lemma not_mem_getTodosByDate_of_no_due (s : Settings) (td : List TodoItem)
    (lo hi : Option Int) (todo : TodoItem)
    (hdue : findTodoDate todo s.dueDateAttribute = none) :
    todo ∉ getTodosByDate s td lo hi false := by
  simp [getTodosByDate, List.mem_filter, todoInRange, hdue, dateIsInRange]

lemma mainSequence_query_shape (s : Settings) (p : PlanningSettings) (td : List TodoItem)
    (t : Int) :
    ∀ b ∈ (getColumns s p td t).drop 2, ∃ lo hi, b.query = Query.byDate lo hi false := by
  intro b hb
  simp only [getColumns, List.drop_succ_cons, List.drop_zero] at hb
  rcases List.mem_append.1 hb with h1 | h23
  · rw [dailyColumns_eq] at h1
    rcases List.mem_filterMap.1 h1 with ⟨k, _, hk⟩
    by_cases hc : ¬s.showWeekEnds ∧ 6 ≤ localDay s (t + 1 + (k : Int))
    · rw [if_pos hc] at hk
      cases hk
    · rw [if_neg hc] at hk
      obtain rfl := Option.some.inj hk
      exact ⟨_, _, rfl⟩
  · rcases List.mem_append.1 h23 with h2 | h34
    · rw [weeklyColumns_eq] at h2
      rcases List.mem_map.1 h2 with ⟨k, _, rfl⟩
      exact ⟨_, _, rfl⟩
    · rcases List.mem_append.1 h34 with h3 | h4
      · rw [monthlyColumns_three] at h3
        simp only [List.mem_cons, List.not_mem_nil, or_false] at h3
        rcases h3 with rfl | rfl | rfl <;> exact ⟨_, _, rfl⟩
      · simp only [List.mem_singleton] at h4
        subst h4
        exact ⟨_, _, rfl⟩

/-! ### Claim theorems -/

/-- Claim C6: the date range membership test is half open and lower
inclusive: for every date d and range, it is true iff (from is null or
d is at least from) and (to is null or d is below to); a null date is never
in range, d equal to from is included, and d equal to to is excluded. -/
theorem C6_range_membership_half_open : ∀ (d lo hi : Int),
    dateIsInRange none none (some d) = true
    ∧ (dateIsInRange (some lo) (some hi) (some d) = true ↔ lo ≤ d ∧ d < hi)
    ∧ (dateIsInRange (some lo) none (some d) = true ↔ lo ≤ d)
    ∧ (dateIsInRange none (some hi) (some d) = true ↔ d < hi)
    ∧ dateIsInRange (some lo) (some hi) none = false
    ∧ (dateIsInRange (some d) (some hi) (some d) = true ↔ d < hi)
    ∧ dateIsInRange (some lo) (some d) (some d) = false := by
  intro d lo hi
  refine ⟨rfl, ?_, ?_, ?_, rfl, ?_, ?_⟩ <;> simp [dateIsInRange]

/-- Claim C8: the status toggle maps a todo whose status is Complete or
Canceled to a requested status of Todo, and a todo in any other status to a
requested status of Complete; the requested status is issued through the
status update request. -/
theorem C8_toggle_status (s : Settings) (todo : TodoItem) :
    ((onclick s todo).1.status = TodoStatus.Todo
      ↔ (todo.status = TodoStatus.Complete ∨ todo.status = TodoStatus.Canceled))
    ∧ ((onclick s todo).1.status = TodoStatus.Complete
      ↔ ¬(todo.status = TodoStatus.Complete ∨ todo.status = TodoStatus.Canceled))
    ∧ (onclick s todo).2
      = [Effect.logDebug ("Changing status on " ++ todo.id),
         Effect.updateStatus todo.id
           (if todo.status = TodoStatus.Complete ∨ todo.status = TodoStatus.Canceled
            then TodoStatus.Todo else TodoStatus.Complete)
           s.completedDateAttribute] := by
  cases htodo : todo.status <;> simp [onclick, htodo]

/-- Claim C9: the WIP style function returns the exceeded marker iff the
limit is on and the bucket count strictly exceeds the daily limit, and the
empty string otherwise; the Today aggregate applies the same threshold to
the open statuses in the today range, with a distinct marker. -/
theorem C9_wip_styles (s : Settings) (wip : WipLimit) (todos td : List TodoItem) (t : Int) :
    (getWipStyle wip todos = "wip-exceeded"
      ↔ (wip.isLimited = true ∧ wip.dailyLimit < todos.length))
    ∧ (getWipStyle wip todos ≠ "wip-exceeded" → getWipStyle wip todos = "")
    ∧ (wip.isLimited = false → getWipStyle wip todos = "")
    ∧ (getTodayWipStyle s wip td t = some "pw-planning-column-content--wip-exceeded"
      ↔ (wip.isLimited = true ∧ wip.dailyLimit <
          (getTodosByDateAndStatus s td t (t + 1)
            [TodoStatus.AttentionRequired, TodoStatus.Delegated,
             TodoStatus.InProgress, TodoStatus.Todo]).length)) := by
  unfold getWipStyle getTodayWipStyle
  cases hL : wip.isLimited
  · simp [hL]
  · simp only [hL]
    split_ifs <;> simp_all

/-- Claim C10: a todo whose attributes mapping is absent appears in no
bucket at all: every date range query excludes it, the Backlog query
excludes it, and every query any bucket evaluates excludes it. -/
theorem C10_no_attributes_no_bucket (s : Settings) (td : List TodoItem)
    (lo hi : Option Int) (inc : Bool) (todo : TodoItem)
    (h : todo.attributes = none) :
    todo ∉ getTodosByDate s td lo hi inc
    ∧ todo ∉ getTodosWithNoDate s td
    ∧ ∀ q : Query, todo ∉ evalQuery s td q := by
  have h1 : todo.attributes.isSome = false := by rw [h]; rfl
  refine ⟨?_, ?_, ?_⟩
  · simp [getTodosByDate, List.mem_filter, h1]
  · simp [getTodosWithNoDate, List.mem_filter, h1]
  · intro q
    cases q with
    | noDate => simp [evalQuery, getTodosWithNoDate, List.mem_filter, h1]
    | pastOpen hi2 => simp [evalQuery, getTodosByDate, List.mem_filter, h1]
    | byDate lo2 hi2 inc2 => simp [evalQuery, getTodosByDate, List.mem_filter, h1]
    | byDateAndStatus lo2 hi2 sts =>
      simp [evalQuery, getTodosByDateAndStatus, getTodosByDate, List.mem_filter, h1]

theorem C10_no_attributes_no_bucket_witness :
    todoNoAttr.attributes = none
    ∧ (todoNoAttr ∉ getTodosByDate cfgA [todoNoAttr] none none false
      ∧ todoNoAttr ∉ getTodosWithNoDate cfgA [todoNoAttr]
      ∧ ∀ q : Query, todoNoAttr ∉ evalQuery cfgA [todoNoAttr] q) :=
  ⟨rfl, C10_no_attributes_no_bucket cfgA [todoNoAttr] none none false todoNoAttr rfl⟩

/-- Claim C5: for a query with includeSelected, a todo qualifies iff its due
date is in range, or it carries the selected marker and is open, or done
with its completed date in range; a done selected todo with completed date
and due date out of range does not qualify; an open selected todo with no
due date qualifies for the Today group Todo bucket query. -/
theorem C5_selection_rule (s : Settings) (lo hi : Option Int) (t : Int) (todo : TodoItem)
    (hattr : todo.attributes.isSome = true) :
    (todo ∈ getTodosByDate s [todo] lo hi true ↔
      (dateIsInRange lo hi (findTodoDate todo s.dueDateAttribute) = true
        ∨ (attrTruthy (attrLookup todo s.selectedAttribute) = true
            ∧ (isDoneStatus todo.status = false
              ∨ (isDoneStatus todo.status = true
                  ∧ dateIsInRange lo hi (findTodoDate todo s.completedDateAttribute) = true)))))
    ∧ (isDoneStatus todo.status = true →
        dateIsInRange lo hi (findTodoDate todo s.completedDateAttribute) = false →
        dateIsInRange lo hi (findTodoDate todo s.dueDateAttribute) = false →
        todo ∉ getTodosByDate s [todo] lo hi true)
    ∧ (todo.status = TodoStatus.Todo →
        attrTruthy (attrLookup todo s.selectedAttribute) = true →
        findTodoDate todo s.dueDateAttribute = none →
        todo ∈ getTodosByDateAndStatus s [todo] t (t + 1) [TodoStatus.Todo]) := by
  have hiff : todo ∈ getTodosByDate s [todo] lo hi true ↔
      (dateIsInRange lo hi (findTodoDate todo s.dueDateAttribute) = true
        ∨ (attrTruthy (attrLookup todo s.selectedAttribute) = true
            ∧ (isDoneStatus todo.status = false
              ∨ (isDoneStatus todo.status = true
                  ∧ dateIsInRange lo hi (findTodoDate todo s.completedDateAttribute) = true)))) := by
    simp only [getTodosByDate, List.mem_filter, List.mem_singleton, true_and,
      Bool.and_eq_true, hattr]
    simp only [todoInRange, hattr, Bool.true_and, Bool.or_eq_true, Bool.and_eq_true,
      Bool.not_eq_true']
    cases hD : isDoneStatus todo.status
    · simp
    · simp
  refine ⟨hiff, ?_, ?_⟩
  · intro h1 h2 h3
    rw [hiff]
    simp [h1, h2, h3]
  · intro hstatus hsel hdue
    simp only [getTodosByDateAndStatus, List.mem_filter]
    constructor
    · simp only [getTodosByDate, List.mem_filter, List.mem_singleton, true_and,
        Bool.and_eq_true, hattr]
      simp [todoInRange, hattr, hsel, hdue, hstatus, isDoneStatus, dateIsInRange]
    · simp [hstatus]

theorem C5_selection_rule_witness :
    todoDoneSel.attributes.isSome = true
    ∧ ((todoDoneSel ∈ getTodosByDate cfgA [todoDoneSel] (some 0) (some 10) true ↔
        (dateIsInRange (some 0) (some 10)
            (findTodoDate todoDoneSel cfgA.dueDateAttribute) = true
          ∨ (attrTruthy (attrLookup todoDoneSel cfgA.selectedAttribute) = true
              ∧ (isDoneStatus todoDoneSel.status = false
                ∨ (isDoneStatus todoDoneSel.status = true
                    ∧ dateIsInRange (some 0) (some 10)
                        (findTodoDate todoDoneSel cfgA.completedDateAttribute) = true)))))
      ∧ (isDoneStatus todoDoneSel.status = true →
          dateIsInRange (some 0) (some 10)
              (findTodoDate todoDoneSel cfgA.completedDateAttribute) = false →
          dateIsInRange (some 0) (some 10)
              (findTodoDate todoDoneSel cfgA.dueDateAttribute) = false →
          todoDoneSel ∉ getTodosByDate cfgA [todoDoneSel] (some 0) (some 10) true)
      ∧ (todoDoneSel.status = TodoStatus.Todo →
          attrTruthy (attrLookup todoDoneSel cfgA.selectedAttribute) = true →
          findTodoDate todoDoneSel cfgA.dueDateAttribute = none →
          todoDoneSel ∈ getTodosByDateAndStatus cfgA [todoDoneSel] 0 (0 + 1)
            [TodoStatus.Todo])) :=
  ⟨rfl, C5_selection_rule cfgA (some 0) (some 10) 0 todoDoneSel rfl⟩

/-- Claim C4 (amended): a move command or a move with status command on an
unknown id logs a warning naming the id and issues no mutation request; a
remove date command on an unknown id issues no mutation request but also no
report at all: its trace is empty, so the claim that every command reports
the missing id at warning level fails on removeDate. -/
theorem C4_unknown_id_amended (s : Settings) (todos : List TodoItem) (now date : Int)
    (status : TodoStatus) (todoId : String) (h : findTodo todos todoId = none) :
    moveToDate s todos date todoId
      = [Effect.logDebug ("Moving " ++ todoId ++ " to " ++ isoDateString date),
         Effect.logWarn ("Todo " ++ todoId ++ " not found")]
    ∧ (moveToDate s todos date todoId).filter Effect.isMutationB = []
    ∧ moveToDateAndStatus s todos now date status todoId
      = [Effect.logDebug ("Moving " ++ todoId ++ " to " ++ isoDateString date),
         Effect.logWarn ("Todo " ++ todoId ++ " not found")]
    ∧ (moveToDateAndStatus s todos now date status todoId).filter Effect.isMutationB = []
    ∧ removeDate s todos todoId = [] := by
  refine ⟨?_, ?_, ?_, ?_, ?_⟩ <;>
    simp [moveToDate, moveToDateAndStatus, removeDate, h, Effect.isMutationB]

theorem C4_unknown_id_amended_witness :
    findTodo ([] : List TodoItem) "missing-id" = none
    ∧ (moveToDate cfgA [] 19884 "missing-id"
        = [Effect.logDebug ("Moving " ++ "missing-id" ++ " to " ++ isoDateString 19884),
           Effect.logWarn ("Todo " ++ "missing-id" ++ " not found")]
      ∧ (moveToDate cfgA [] 19884 "missing-id").filter Effect.isMutationB = []
      ∧ moveToDateAndStatus cfgA [] 0 19884 TodoStatus.Todo "missing-id"
        = [Effect.logDebug ("Moving " ++ "missing-id" ++ " to " ++ isoDateString 19884),
           Effect.logWarn ("Todo " ++ "missing-id" ++ " not found")]
      ∧ (moveToDateAndStatus cfgA [] 0 19884 TodoStatus.Todo "missing-id").filter
          Effect.isMutationB = []
      ∧ removeDate cfgA [] "missing-id" = []) :=
  ⟨rfl, C4_unknown_id_amended cfgA [] 0 19884 TodoStatus.Todo "missing-id" rfl⟩

/-- Claim C4 counterexample: removeDate on an id absent from the snapshot
produces no effect at all, in particular no warning level report, refuting
the claim that every command reports the missing id at warning level. -/
theorem C4_counterexample :
    removeDate cfgA [] "missing-id" = []
    ∧ (removeDate cfgA [] "missing-id").countP Effect.isWarnB = 0 :=
  ⟨rfl, rfl⟩

/-- Claim C7: a move with status command on a found todo issues the due date
attribute mutation first, then the status mutation, then, exactly when
trackStartTime is on, the started attribute is empty and the target status
is InProgress, the started attribute mutation stamped with the current day;
the trace order is the issue order of the promise chain, each request
issued after the completion of the previous one. -/
theorem C7_move_status_order (s : Settings) (todos : List TodoItem) (now date : Int)
    (status : TodoStatus) (todoId : String) (todo : TodoItem)
    (h : findTodo todos todoId = some todo) :
    moveToDateAndStatus s todos now date status todoId
      = Effect.logDebug ("Moving " ++ todoId ++ " to " ++ isoDateString date)
        :: Effect.updateAttribute todo.id s.dueDateAttribute (isoDateString date)
        :: Effect.updateStatus todo.id status s.completedDateAttribute
        :: (if s.trackStartTime = true
              ∧ attrTruthy (attrLookup todo s.startedAttribute) = false
              ∧ status = TodoStatus.InProgress
            then [Effect.updateAttribute todo.id s.startedAttribute (isoDateString now)]
            else [])
    ∧ (moveToDateAndStatus s todos now date status todoId).filter Effect.isMutationB
      = Effect.updateAttribute todo.id s.dueDateAttribute (isoDateString date)
        :: Effect.updateStatus todo.id status s.completedDateAttribute
        :: (if s.trackStartTime = true
              ∧ attrTruthy (attrLookup todo s.startedAttribute) = false
              ∧ status = TodoStatus.InProgress
            then [Effect.updateAttribute todo.id s.startedAttribute (isoDateString now)]
            else []) := by
  by_cases hc : s.trackStartTime = true
      ∧ attrTruthy (attrLookup todo s.startedAttribute) = false
      ∧ status = TodoStatus.InProgress
  · have hb : (s.trackStartTime && !(attrTruthy (attrLookup todo s.startedAttribute))
        && (status == TodoStatus.InProgress)) = true := by
      obtain ⟨h1, h2, h3⟩ := hc
      simp [h1, h2, h3]
    refine ⟨?_, ?_⟩ <;>
      simp [moveToDateAndStatus, h, hb, hc, Effect.isMutationB]
  · have hb : (s.trackStartTime && !(attrTruthy (attrLookup todo s.startedAttribute))
        && (status == TodoStatus.InProgress)) = false := by
      rw [Bool.and_eq_false_iff]
      by_cases h1 : s.trackStartTime = true
      · by_cases h2 : attrTruthy (attrLookup todo s.startedAttribute) = false
        · right
          rw [beq_eq_false_iff_ne]
          intro h3
          exact hc ⟨h1, h2, h3⟩
        · left
          rw [Bool.and_eq_false_iff]
          right
          simp at h2
          simp [h2]
      · left
        rw [Bool.and_eq_false_iff]
        left
        simp at h1
        simp [h1]
    refine ⟨?_, ?_⟩ <;>
      simp [moveToDateAndStatus, h, hb, hc, Effect.isMutationB]

theorem C7_move_status_order_witness :
    findTodo [todoSel] "todo-1" = some todoSel
    ∧ (moveToDateAndStatus cfgA [todoSel] 19884 19885 TodoStatus.InProgress "todo-1"
      = Effect.logDebug ("Moving " ++ "todo-1" ++ " to " ++ isoDateString 19885)
        :: Effect.updateAttribute todoSel.id cfgA.dueDateAttribute (isoDateString 19885)
        :: Effect.updateStatus todoSel.id TodoStatus.InProgress cfgA.completedDateAttribute
        :: (if cfgA.trackStartTime = true
              ∧ attrTruthy (attrLookup todoSel cfgA.startedAttribute) = false
              ∧ TodoStatus.InProgress = TodoStatus.InProgress
            then [Effect.updateAttribute todoSel.id cfgA.startedAttribute (isoDateString 19884)]
            else [])
      ∧ (moveToDateAndStatus cfgA [todoSel] 19884 19885 TodoStatus.InProgress "todo-1").filter
          Effect.isMutationB
        = Effect.updateAttribute todoSel.id cfgA.dueDateAttribute (isoDateString 19885)
          :: Effect.updateStatus todoSel.id TodoStatus.InProgress cfgA.completedDateAttribute
          :: (if cfgA.trackStartTime = true
                ∧ attrTruthy (attrLookup todoSel cfgA.startedAttribute) = false
                ∧ TodoStatus.InProgress = TodoStatus.InProgress
              then [Effect.updateAttribute todoSel.id cfgA.startedAttribute (isoDateString 19884)]
              else [])) :=
  ⟨rfl, C7_move_status_order cfgA [todoSel] 19884 19885 TodoStatus.InProgress "todo-1"
    todoSel rfl⟩

/-- Claim C2 counterexample: with showWeekEnds off, starting Monday
2024-06-10 (day 19884) with firstWeekday 1, the daily loop emits only 4
buckets, not 6: the two skipped weekend days still consume loop iterations,
refuting the claim that a skipped day does not count toward the 6. -/
theorem C2_counterexample :
    (dailyColumns cfgNoWeekends pA [] 6 0 (19884 + 1)).length = 4
    ∧ (dailyColumns cfgNoWeekends pA [] 6 0 (19884 + 1)).length ≠ 6 :=
  ⟨rfl, by decide⟩

/-- Claim C2 (amended): the daily loop performs exactly 6 iterations over
the dates today+1 .. today+6; with showWeekEnds off a day whose local index
reaches 6 is skipped, advancing the cursor without emitting a bucket, but
it still counts toward the 6 iterations, so exactly one bucket is emitted
per non weekend day among those six dates; the first emitted bucket is
labeled Tomorrow whenever tomorrow is a weekday. -/
theorem C2_daily_emission_amended (s : Settings) (p : PlanningSettings) (td : List TodoItem)
    (t : Int) (hswe : s.showWeekEnds = false) :
    dailyColumns s p td 6 0 (t + 1)
      = ((List.range 6).filter (fun k : Nat =>
            decide (localDay s (t + 1 + (k : Int)) < 6))).map
          (fun k : Nat => dailyBucket s p td k (t + 1 + (k : Int)))
    ∧ (dailyColumns s p td 6 0 (t + 1)).length
      = ((List.range 6).filter (fun k : Nat =>
            decide (localDay s (t + 1 + (k : Int)) < 6))).length
    ∧ (localDay s (t + 1) < 6 →
        (dailyColumns s p td 6 0 (t + 1)).head?.map Bucket.title = some "Tomorrow") := by
  have h1 : dailyColumns s p td 6 0 (t + 1)
      = (List.range 6).filterMap (fun k : Nat =>
          if 6 ≤ localDay s (t + 1 + (k : Int)) then none
          else some (dailyBucket s p td k (t + 1 + (k : Int)))) := by
    rw [dailyColumns_eq]
    apply List.filterMap_congr
    intro k _
    rw [hswe]
    simp
  have h2 : dailyColumns s p td 6 0 (t + 1)
      = ((List.range 6).filter (fun k : Nat =>
            decide (localDay s (t + 1 + (k : Int)) < 6))).map
          (fun k : Nat => dailyBucket s p td k (t + 1 + (k : Int))) := by
    rw [h1, filterMap_ite_eq_map_filter]
    congr 1
    apply List.filter_congr
    intro k _
    rw [decide_eq_decide]
    omega
  refine ⟨h2, by rw [h2, List.length_map], ?_⟩
  intro hld
  rw [h2, show List.range 6 = 0 :: [1, 2, 3, 4, 5] from rfl,
    List.filter_cons_of_pos (by simpa using hld)]
  simp [dailyBucket]

theorem C2_daily_emission_amended_witness :
    cfgNoWeekends.showWeekEnds = false
    ∧ (dailyColumns cfgNoWeekends pA [] 6 0 (19884 + 1)
        = ((List.range 6).filter (fun k : Nat =>
              decide (localDay cfgNoWeekends (19884 + 1 + (k : Int)) < 6))).map
            (fun k : Nat => dailyBucket cfgNoWeekends pA [] k (19884 + 1 + (k : Int)))
      ∧ (dailyColumns cfgNoWeekends pA [] 6 0 (19884 + 1)).length
        = ((List.range 6).filter (fun k : Nat =>
              decide (localDay cfgNoWeekends (19884 + 1 + (k : Int)) < 6))).length
      ∧ (localDay cfgNoWeekends (19884 + 1) < 6 →
          (dailyColumns cfgNoWeekends pA [] 6 0 (19884 + 1)).head?.map Bucket.title
            = some "Tomorrow")) :=
  ⟨rfl, C2_daily_emission_amended cfgNoWeekends pA [] 19884 rfl⟩

/-- Claim C3 counterexample: a pinned open todo with no due date is absent
from the first daily bucket (Tomorrow, day 19885) even though the same
range queried with includeSelected true contains it: the daily buckets do
not query with includeSelected true, refuting the claim. -/
theorem C3_counterexample :
    ((dailyColumns cfgA pA [todoSel] 6 0 (19884 + 1)).head?.map
        (fun b => bucketTodos cfgA [todoSel] b)) = some []
    ∧ getTodosByDate cfgA [todoSel] (some (19884 + 1)) (some (19884 + 2)) true = [todoSel] :=
  ⟨rfl, rfl⟩

/-- Claim C3 (amended): every daily, weekly, monthly and Later bucket
queries its todos with includeSelected false (the omitted default), so the
selection rule does not extend to them: a pinned open todo with no due date
is in none of those buckets, while it does qualify for the Today group
query, the only call site passing includeSelected true. -/
theorem C3_selection_only_today_amended (s : Settings) (p : PlanningSettings)
    (td : List TodoItem) (t : Int) (todo : TodoItem)
    (hattr : todo.attributes.isSome = true)
    (hsel : attrTruthy (attrLookup todo s.selectedAttribute) = true)
    (hdue : findTodoDate todo s.dueDateAttribute = none)
    (_hopen : isDoneStatus todo.status = false) :
    (∀ b ∈ (getColumns s p td t).drop 2, todo ∉ bucketTodos s td b)
    ∧ (todo.status = TodoStatus.Todo →
        todo ∈ getTodosByDateAndStatus s (todo :: td) t (t + 1) [TodoStatus.Todo]) := by
  constructor
  · intro b hb
    obtain ⟨lo, hi, hq⟩ := mainSequence_query_shape s p td t b hb
    rw [bucketTodos, hq]
    exact not_mem_getTodosByDate_of_no_due s td lo hi todo hdue
  · intro hstatus
    simp only [getTodosByDateAndStatus, List.mem_filter]
    refine ⟨?_, by simp [hstatus]⟩
    simp only [getTodosByDate, List.mem_filter, List.mem_cons, Bool.and_eq_true]
    exact ⟨Or.inl trivial, hattr, by
      simp [todoInRange, hattr, hsel, hdue, hstatus, isDoneStatus, dateIsInRange]⟩

theorem C3_selection_only_today_amended_witness :
    todoSel.attributes.isSome = true
    ∧ attrTruthy (attrLookup todoSel cfgA.selectedAttribute) = true
    ∧ findTodoDate todoSel cfgA.dueDateAttribute = none
    ∧ isDoneStatus todoSel.status = false
    ∧ ((∀ b ∈ (getColumns cfgA pA [todoSel] 19884).drop 2,
          todoSel ∉ bucketTodos cfgA [todoSel] b)
      ∧ (todoSel.status = TodoStatus.Todo →
          todoSel ∈ getTodosByDateAndStatus cfgA (todoSel :: [todoSel]) 19884 (19884 + 1)
            [TodoStatus.Todo])) :=
  ⟨rfl, rfl, rfl, rfl,
    C3_selection_only_today_amended cfgA pA [todoSel] 19884 todoSel rfl rfl rfl rfl⟩

/-- Claim C1 counterexample: the claimed partition (every date from today+1
on lies in exactly one main sequence range, over all values of now,
firstWeekday and showWeekEnds) is false: with today Wednesday 2024-06-12
(day 19886), Monday 2024-06-17 (day 19891) lies in two ranges (the sixth
daily bracket and the Next week bracket); with today Sunday 2024-12-01
(day 20058), 2024-12-30 (day 20087) lies in no range at all (the weekly
coverage ends at 2024-12-30 and the monthly coverage starts at 2025-01-01),
both with firstWeekday 1 and showWeekEnds true. -/
theorem C1_counterexample :
    ¬(∀ (s : Settings) (p : PlanningSettings) (td : List TodoItem) (today d : Int),
        today + 1 ≤ d →
          (mainRanges s p td today).countP (fun r => decide (rangeContains r d)) = 1)
    ∧ (mainRanges cfgA pA [] 19886).countP (fun r => decide (rangeContains r 19891)) = 2
    ∧ (mainRanges cfgA pA [] 20058).countP (fun r => decide (rangeContains r 20087)) = 0 :=
  ⟨fun h => absurd (h cfgA pA [] 19886 19891 (by decide)) (by decide),
    by decide, by decide⟩

/-- Claim C1 (amended): the main sequence is not a partition of the date
line; what holds is mainSequenceStructure: internal disjointness of the
Past plus daily family, of the weekly family and of the monthly plus Later
family; the monthly and Later ranges jointly cover everything from the
first monthly start on; with weekends shown the main sequence covers
[today+1, startOfThisWeek+35); Past covers exactly the dates before today
and every other range lies entirely after today.  The calendar facts that
today precedes the first monthly start and that the four monthly starts
are strictly increasing enter as hypotheses. -/
theorem C1_main_sequence_amended (s : Settings) (p : PlanningSettings) (td : List TodoItem)
    (t : Int)
    (hfw1 : 1 ≤ s.firstWeekday) (hfw7 : s.firstWeekday ≤ 7)
    (hm0 : t < nextMonthStart t)
    (hm1 : nextMonthStart t < nextMonthStart (nextMonthStart t))
    (hm2 : nextMonthStart (nextMonthStart t)
        < nextMonthStart (nextMonthStart (nextMonthStart t)))
    (hm3 : nextMonthStart (nextMonthStart (nextMonthStart t))
        < nextMonthStart (nextMonthStart (nextMonthStart (nextMonthStart t)))) :
    mainSequenceStructure s p td t := by
  have hwle : startOfThisWeekOn s t ≤ t := startOfThisWeekOn_le s t hfw7
  have hwge : t - 6 ≤ startOfThisWeekOn s t := startOfThisWeekOn_ge s t hfw1
  unfold mainSequenceStructure
  refine ⟨?_, ?_, ?_, ?_, ?_, ?_, ?_, ?_⟩
  · -- Past and the daily ranges are pairwise disjoint
    rw [bucketRanges_daily]
    apply List.pairwise_cons.2
    constructor
    · intro r hr
      rcases List.mem_filterMap.1 hr with ⟨k, _, hik⟩
      by_cases hc : ¬s.showWeekEnds ∧ 6 ≤ localDay s (t + 1 + (k : Int))
      · rw [if_pos hc] at hik
        cases hik
      · rw [if_neg hc] at hik
        obtain rfl := Option.some.inj hik
        intro d hd
        rcases hd with ⟨hd1, hd2⟩
        rw [rangeContains_none_some] at hd1
        rw [rangeContains_some_some] at hd2
        have hk0 : (0 : Int) ≤ (k : Int) := Int.natCast_nonneg k
        omega
    · rw [filterMap_ite_eq_map_filter, List.pairwise_map]
      apply List.Pairwise.filter
      apply (List.pairwise_lt_range 6).imp
      intro a b hab
      intro d hd
      rcases hd with ⟨hd1, hd2⟩
      rw [rangeContains_some_some] at hd1 hd2
      have hab2 : (a : Int) < (b : Int) := by exact_mod_cast hab
      omega
  · -- the weekly ranges are pairwise disjoint
    rw [bucketRanges_weekly, List.pairwise_map]
    apply (List.pairwise_lt_range 4).imp
    intro a b hab
    intro d hd
    rcases hd with ⟨hd1, hd2⟩
    rw [rangeContains_some_some] at hd1 hd2
    have hab2 : (a : Int) < (b : Int) := by exact_mod_cast hab
    omega
  · -- the monthly and Later ranges are pairwise disjoint
    rw [bucketRanges_monthly3]
    simp only [List.cons_append, List.nil_append]
    refine List.Pairwise.cons ?_ (List.Pairwise.cons ?_ (List.Pairwise.cons ?_
      (List.pairwise_singleton _ _)))
    · intro r hr d hd
      rcases hd with ⟨hd1, hd2⟩
      rw [rangeContains_some_some] at hd1
      simp only [List.mem_cons, List.not_mem_nil, or_false] at hr
      rcases hr with rfl | rfl | rfl
      · rw [rangeContains_some_some] at hd2
        omega
      · rw [rangeContains_some_some] at hd2
        omega
      · rw [rangeContains_some_none] at hd2
        omega
    · intro r hr d hd
      rcases hd with ⟨hd1, hd2⟩
      rw [rangeContains_some_some] at hd1
      simp only [List.mem_cons, List.not_mem_nil, or_false] at hr
      rcases hr with rfl | rfl
      · rw [rangeContains_some_some] at hd2
        omega
      · rw [rangeContains_some_none] at hd2
        omega
    · intro r hr d hd
      rcases hd with ⟨hd1, hd2⟩
      rw [rangeContains_some_some] at hd1
      simp only [List.mem_singleton] at hr
      subst hr
      rw [rangeContains_some_none] at hd2
      omega
  · -- the monthly and Later ranges cover [first monthly start, infinity)
    intro d hd
    rw [mainRanges_eq]
    by_cases h1 : d < nextMonthStart (nextMonthStart t)
    · refine ⟨(some (nextMonthStart t), some (nextMonthStart (nextMonthStart t))), ?_, ?_⟩
      · simp [bucketRanges_monthly3]
      · rw [rangeContains_some_some]
        exact ⟨hd, h1⟩
    · by_cases h2 : d < nextMonthStart (nextMonthStart (nextMonthStart t))
      · refine ⟨(some (nextMonthStart (nextMonthStart t)),
            some (nextMonthStart (nextMonthStart (nextMonthStart t)))), ?_, ?_⟩
        · simp [bucketRanges_monthly3]
        · rw [rangeContains_some_some]
          omega
      · by_cases h3 : d < nextMonthStart (nextMonthStart (nextMonthStart (nextMonthStart t)))
        · refine ⟨(some (nextMonthStart (nextMonthStart (nextMonthStart t))),
              some (nextMonthStart (nextMonthStart (nextMonthStart (nextMonthStart t))))),
              ?_, ?_⟩
          · simp [bucketRanges_monthly3]
          · rw [rangeContains_some_some]
            omega
        · refine ⟨(some (nextMonthStart (nextMonthStart (nextMonthStart (nextMonthStart t)))),
              none), ?_, ?_⟩
          · simp
          · rw [rangeContains_some_none]
            omega
  · -- with weekends shown the main sequence covers [t+1, startOfThisWeek+35)
    intro hswe d hd1 hd2
    rw [mainRanges_eq]
    by_cases hdl : d < t + 7
    · refine ⟨(some (t + 1 + (((d - (t + 1)).toNat : Nat) : Int)),
          some (t + 1 + (((d - (t + 1)).toNat : Nat) : Int) + 1)), ?_, ?_⟩
      · apply List.mem_cons_of_mem
        apply List.mem_append_left
        rw [bucketRanges_daily]
        apply List.mem_filterMap.2
        refine ⟨(d - (t + 1)).toNat, List.mem_range.2 (by omega), ?_⟩
        rw [if_neg (by simp [hswe])]
      · rw [rangeContains_some_some]
        omega
    · refine ⟨(some (startOfThisWeekOn s t + 7
            + 7 * ((((d - (startOfThisWeekOn s t + 7)).toNat / 7 : Nat) : Int))),
          some (startOfThisWeekOn s t + 7
            + 7 * ((((d - (startOfThisWeekOn s t + 7)).toNat / 7 : Nat) : Int)) + 7)),
          ?_, ?_⟩
      · apply List.mem_cons_of_mem
        apply List.mem_append_right
        apply List.mem_append_left
        rw [bucketRanges_weekly]
        exact List.mem_map.2 ⟨(d - (startOfThisWeekOn s t + 7)).toNat / 7,
          List.mem_range.2 (by omega), rfl⟩
      · rw [rangeContains_some_some]
        omega
  · -- Past contains every date before t
    intro d hd
    rw [rangeContains_none_some]
    exact hd
  · -- the Past range is one of the main sequence ranges
    rw [mainRanges_eq]
    exact List.mem_cons_self _ _
  · -- every weekly, monthly and Later range lies entirely after t
    intro r hr d hc
    rcases List.mem_append.1 hr with h1 | h23
    · rw [bucketRanges_weekly] at h1
      rcases List.mem_map.1 h1 with ⟨k, _, rfl⟩
      rw [rangeContains_some_some] at hc
      have hk0 : (0 : Int) ≤ (k : Int) := Int.natCast_nonneg k
      omega
    · rcases List.mem_append.1 h23 with h2 | h3
      · rw [bucketRanges_monthly3] at h2
        simp only [List.mem_cons, List.not_mem_nil, or_false] at h2
        rcases h2 with rfl | rfl | rfl
        · rw [rangeContains_some_some] at hc
          omega
        · rw [rangeContains_some_some] at hc
          omega
        · rw [rangeContains_some_some] at hc
          omega
      · simp only [List.mem_singleton] at h3
        subst h3
        rw [rangeContains_some_none] at hc
        omega

theorem C1_main_sequence_amended_witness :
    (1 ≤ cfgA.firstWeekday ∧ cfgA.firstWeekday ≤ 7
      ∧ 19884 < nextMonthStart 19884
      ∧ nextMonthStart 19884 < nextMonthStart (nextMonthStart 19884)
      ∧ nextMonthStart (nextMonthStart 19884)
          < nextMonthStart (nextMonthStart (nextMonthStart 19884))
      ∧ nextMonthStart (nextMonthStart (nextMonthStart 19884))
          < nextMonthStart (nextMonthStart (nextMonthStart (nextMonthStart 19884))))
    ∧ mainSequenceStructure cfgA pA [] 19884 :=
  ⟨⟨by decide, by decide, by decide, by decide, by decide, by decide⟩,
    C1_main_sequence_amended cfgA pA [] 19884 (by decide) (by decide) (by decide)
      (by decide) (by decide) (by decide)⟩

end PW
